import Mathlib

/-!
# Verification of the Docker Swarm cluster lifecycle coordinator

A shallow embedding of `swarm` (the cluster lifecycle coordinator of
go-swarm).  The coordinator acts through a swappable execution transport
("switch current target", "run command on current target").  We model the
transport as an oracle `Env` deciding the outcome of every switch and of
every issued command, and thread an explicit state `MState` carrying the
current target, a logical clock (seconds; only the drain ticker advances
it) and the trace of all transport invocations, so that theorems can count
and order the commands a stubbed transport would record.

Machine-level concerns (JSON bytes, stdout plumbing) are external
deserialization capabilities in the source; the oracle therefore answers
queries with already-decoded structures, `none` standing for either an
execution failure or an undecodable output.
-/

namespace Swarm

deriving instance DecidableEq for Except

/-- The command vocabulary of the coordinator, one constructor per command
template of the source (`infoCommand`, `nodesCommand`, `tasksCommand`,
`initCommand`, `joinCommand`, `tokenCommand`, `updateCommand`); parameters
are the values substituted into each template. -/
inductive Cmd where
  /-- `docker info` -/
  | info : Cmd
  /-- `docker node ls` -/
  | nodesLs : Cmd
  /-- `docker node ps ... <node>` -/
  | tasks (node : String) : Cmd
  /-- `docker swarm init --advertise-addr <a> --listen-addr <l>` -/
  | swarmInit (advertiseAddr listenAddr : String) : Cmd
  /-- `docker swarm join --advertise-addr <a> --listen-addr <l> --token <t> <m>:2377` -/
  | join (advertiseAddr listenAddr token managerAddr : String) : Cmd
  /-- `docker swarm join-token -q <role>` -/
  | joinTokenCmd (role : String) : Cmd
  /-- `docker node update <options> <node>` -/
  | nodeUpdate (options : List String) (node : String) : Cmd
deriving DecidableEq, Repr

/-- A command is mutating when it changes cluster state (init, join,
node update); info/roster/task/token commands are pure queries. -/
def Cmd.isMutating : Cmd → Bool
  | .swarmInit _ _ => true
  | .join _ _ _ _ => true
  | .nodeUpdate _ _ => true
  | _ => false

/-- One invocation recorded against the transport stub: either an attempt
to switch the current target, or a command run against the then-current
target. -/
inductive Effect where
  | switch (addr : String) : Effect
  | run (target : String) (cmd : Cmd) : Effect
deriving DecidableEq, Repr

/-- `--availability drain` flag fragment of the source's `setAvailability`
template applied to `availabilityDrain`. -/
def setAvailabilityDrain : String := "--availability drain"

/-- One remote manager entry of a node's swarm info
(`node.Swarm.RemoteManagers`), carrying a `host:port` address. -/
structure RemoteManager where
  Addr : String
deriving DecidableEq, Repr

/-- `node.Swarm.Cluster` — the cluster identity as seen by one node; the
identifier is the empty string when the node is in no cluster. -/
structure ClusterInfo where
  ID : String
deriving DecidableEq, Repr

/-- `node.Swarm` — the swarm section of `docker info` output used by the
coordinator: own node id, active-manager flag, cluster identity and the
remote manager address list. -/
structure SwarmInfo where
  NodeID : String
  ControlAvailable : Bool
  Cluster : ClusterInfo
  RemoteManagers : List RemoteManager
deriving DecidableEq, Repr

/-- The decoded `docker info` document (`NodeInfo` in the repository). -/
structure NodeInfo where
  Swarm : SwarmInfo
deriving DecidableEq, Repr

/-- Modelled from the spec: `NodeInfo.IsManager` (declared outside the
given source file) reports "whether it is currently an active manager"
(§3 ClusterInfo); we read it off the decoded active-manager flag. -/
def NodeInfo.IsManager (n : NodeInfo) : Bool := n.Swarm.ControlAvailable

/-- One row of `docker node ls` output (`NodeStatus` in the repository);
only the hostname is consumed by the coordinator. -/
structure NodeStatus where
  Hostname : String
deriving DecidableEq, Repr

/-- One row of `docker node ps` output (`Task` in the repository).
Modelled from the spec: a task carries a desired-state/current-state pair
and what matters to the drain loop is whether the current state is a
shutdown/terminal one; `terminal` is that decoded judgement. -/
structure Task where
  terminal : Bool
deriving DecidableEq, Repr

/-- Task list type (`Tasks` in the repository). -/
abbrev Tasks := List Task

/-- Modelled from the spec: `Tasks.AllShutdown` (declared outside the
given source file) holds when "every TaskRow for that node reports a
shutdown/terminal current state" (§3 TaskRow). -/
def Tasks.AllShutdown (ts : Tasks) : Bool := ts.all (·.terminal)

/-- Modelled from the spec: a membership-manifest member (`VMNode` in the
repository, declared outside the given source file): public address
(reachable by the coordinator), private address (intra-cluster
advertisement), hostname, a role tag and the already-parsed label
key/values of its optional label tag (§3 MemberNode; label syntax parsing
is an out-of-scope external capability). -/
structure VMNode where
  Hostname : String
  PublicAddress : String
  PrivateAddress : String
  Role : String
  Labels : List (String × List String)
deriving DecidableEq, Repr, Inhabited

/-- Membership list (`VMNodes` in the repository). -/
abbrev VMNodes := List VMNode

/-- Role-tag value `manager` (`ManagerRole`). -/
def ManagerRole : String := "manager"

/-- Role-tag value `worker` (`WorkerRole`). -/
def WorkerRole : String := "worker"

/-- Modelled from the spec: `VMNodes.FilterByTag(RoleTag, value)`
(declared outside the given source file) keeps the members whose role tag
equals `value`. -/
def VMNodes.FilterByRole (vms : VMNodes) (value : String) : VMNodes :=
  vms.filter (fun v => v.Role == value)

/-- The structured failure taxonomy of the coordinator (§7).  The source
wraps causes in message chains via `fmt.Errorf(... %w ...)`; the embedding
propagates the underlying cause and drops the textual context. -/
inductive SwarmError where
  /-- `Switcher.Switch` rejected the address (TransportError). -/
  | switchFailed (addr : String) : SwarmError
  /-- the command ran but failed, or its output did not decode
  (ExecutionError / DeserializationError). -/
  | execFailed (cmd : Cmd) : SwarmError
  /-- "error expected 3 or 5 managers but got %d" -/
  | invalidQuorumSize (n : Nat) : SwarmError
  /-- "error swarm cluster with id %s already exists" -/
  | clusterAlreadyExists (id : String) : SwarmError
  /-- "error no swarm cluster found" -/
  | noExistingCluster : SwarmError
  /-- "unable to connect to suitable manager" -/
  | noSuitableManager : SwarmError
  /-- "error timed out waiting for %s to drain after %s" (elapsed
  seconds). -/
  | drainTimeout (elapsedSeconds : Nat) : SwarmError
deriving DecidableEq, Repr

/-- The coordinator's mutable context: the transport's current target,
the logical clock in seconds (advanced only by the drain ticker) and the
trace of transport invocations so far, oldest first. -/
structure MState where
  target : String
  now : Nat
  trace : List Effect
deriving DecidableEq, Repr

/-- Result of one coordinator operation: the value or the failure, plus
the state after it (the trace survives failures, as a recording stub
would). -/
abbrev Res (α : Type) := Except SwarmError α × MState

/-- The transport/collaborator oracle (the "stub"): decides every switch
outcome, the decoded answer of every query (`none` = execution or
decoding failure; task queries are indexed by the per-node poll number so
a stub can converge over time), the success of every mutating command,
and the value drawn by `rand.Intn` (taken modulo the bound). -/
structure Env where
  switchOk : String → Bool
  splitHostPort : String → Option String
  infoAt : String → Option NodeInfo
  nodesAt : String → Option (List NodeStatus)
  tasksAt : String → String → Nat → Option Tasks
  tokenAt : String → String → Option String
  mutOk : String → Cmd → Bool
  randIdx : Nat

/-- Append one recorded invocation to the trace. -/
def MState.push (st : MState) (e : Effect) : MState :=
  { st with trace := st.trace ++ [e] }

/-- `Manager.SwitchNode`: ask the transport to make `addr` the current
target; on success the target changes, on failure it does not.  The
attempt is recorded either way. -/
def SwitchNode (env : Env) (addr : String) (st : MState) : Res Unit :=
  let st := st.push (.switch addr)
  if env.switchOk addr then
    (Except.ok (), { st with target := addr })
  else
    (Except.error (.switchFailed addr), st)

/-- `Manager.GetInfo`: run the info command on the current target and
decode a `NodeInfo`. -/
def GetInfo (env : Env) (st : MState) : Res NodeInfo :=
  let st := st.push (.run st.target .info)
  match env.infoAt st.target with
  | some n => (Except.ok n, st)
  | none => (Except.error (.execFailed .info), st)

/-- `Manager.JoinToken`: run the join-token command for `tokenType` on
the current target and return the trimmed secret. -/
def JoinToken (env : Env) (tokenType : String) (st : MState) : Res String :=
  let st := st.push (.run st.target (.joinTokenCmd tokenType))
  match env.tokenAt st.target tokenType with
  | some t => (Except.ok t.trim, st)
  | none => (Except.error (.execFailed (.joinTokenCmd tokenType)), st)

/-- Run one mutating command (init / join / node update) on the current
target. -/
def runMut (env : Env) (cmd : Cmd) (st : MState) : Res Unit :=
  let st := st.push (.run st.target cmd)
  if env.mutOk st.target cmd then (Except.ok (), st)
  else (Except.error (.execFailed cmd), st)

/-- `Manager.getTasks`: run the task-listing command for `node` on the
current target and decode the rows; `pollIdx` is the per-node poll number
feeding the oracle. -/
def getTasks (env : Env) (node : String) (pollIdx : Nat) (st : MState) :
    Res Tasks :=
  let st := st.push (.run st.target (.tasks node))
  match env.tasksAt st.target node pollIdx with
  | some ts => (Except.ok ts, st)
  | none => (Except.error (.execFailed (.tasks node)), st)

/-- `Manager.GetNodes` sans the leading `ensureManager` call: run the
roster-listing command on the current target and decode the rows. -/
def listNodes (env : Env) (st : MState) : Res (List NodeStatus) :=
  let st := st.push (.run st.target .nodesLs)
  match env.nodesAt st.target with
  | some ns => (Except.ok ns, st)
  | none => (Except.error (.execFailed .nodesLs), st)

/-- The candidate loop of `ensureManager`: walk the remote-manager list
in order; skip a candidate whose address does not parse or whose switch
is rejected; succeed on the first accepted switch; fail with
`noSuitableManager` when the list is exhausted. -/
def tryRemoteManagers (env : Env) :
    List RemoteManager → MState → Res Unit
  | [], st => (Except.error .noSuitableManager, st)
  | rm :: rest, st =>
    match env.splitHostPort rm.Addr with
    | none => tryRemoteManagers env rest st
    | some host =>
      match SwitchNode env host st with
      | (Except.ok _, st') => (Except.ok (), st')
      | (Except.error _, st') => tryRemoteManagers env rest st'

/-- `Manager.ensureManager`: query the current target's info; if it is an
active manager succeed at once, otherwise fail over along its
remote-manager list. -/
def ensureManager (env : Env) (st : MState) : Res Unit :=
  match GetInfo env st with
  | (Except.error e, st') => (Except.error e, st')
  | (Except.ok node, st') =>
    if node.IsManager then (Except.ok (), st')
    else tryRemoteManagers env node.Swarm.RemoteManagers st'

/-- `Manager.GetNodes`: ensure a manager target, then list the roster. -/
def GetNodes (env : Env) (st : MState) : Res (List NodeStatus) :=
  match ensureManager env st with
  | (Except.error e, st') => (Except.error e, st')
  | (Except.ok _, st') => listNodes env st'

/-- Role argument of the manager join-token fetch (`managerToken`). -/
def managerToken : String := "manager"

/-- Role argument of the worker join-token fetch (`workerToken`). -/
def workerToken : String := "worker"

/-- `Manager.joinSwarm`: switch to the joining node's public address and
run the join command advertising its private address, with the given
token, against the manager's private address. -/
def joinSwarm (env : Env) (newNode managerNode : VMNode) (token : String)
    (st : MState) : Res Unit :=
  match SwitchNode env newNode.PublicAddress st with
  | (Except.error e, st') => (Except.error e, st')
  | (Except.ok _, st') =>
    runMut env
      (.join newNode.PrivateAddress newNode.PrivateAddress token
        managerNode.PrivateAddress) st'

/-- One `--label-add` flag fragment for a parsed label key/values pair
(the `labelAdd` template applied to `key=v1,v2,...`). -/
def labelOption (kv : String × List String) : String :=
  "--label-add " ++ kv.1 ++ "=" ++ String.intercalate "," kv.2

/-- `Manager.labelNode`: switch to the node, query its info for the node
id, and—when the node's label tag parses to a non-empty set—run one node
update command adding every label.  With no labels nothing is run (but
the switch and the info query have already happened). -/
def labelNode (env : Env) (node : VMNode) (st : MState) : Res Unit :=
  match SwitchNode env node.PublicAddress st with
  | (Except.error e, st') => (Except.error e, st')
  | (Except.ok _, st') =>
    match GetInfo env st' with
    | (Except.error e, st'') => (Except.error e, st'')
    | (Except.ok info, st'') =>
      if node.Labels.isEmpty then (Except.ok (), st'')
      else
        runMut env
          (.nodeUpdate (node.Labels.map labelOption) info.Swarm.NodeID) st''

/-- Join one node and then label it — the per-node body of every join
loop of `CreateSwarm`/`UpdateSwarm` (labeling immediately follows
joining, per node). -/
def joinAndLabel (env : Env) (n ldr : VMNode) (token : String)
    (st : MState) : Res Unit :=
  match joinSwarm env n ldr token st with
  | (Except.error e, st') => (Except.error e, st')
  | (Except.ok _, st') => labelNode env n st'

/-- A join loop without a skip: join+label each listed node in order,
aborting on the first failure (`CreateSwarm`'s worker loop and both
`UpdateSwarm` loops). -/
def joinAll (env : Env) (ldr : VMNode) (token : String) :
    List VMNode → MState → Res Unit
  | [], st => (Except.ok (), st)
  | n :: rest, st =>
    match joinAndLabel env n ldr token st with
    | (Except.error e, st') => (Except.error e, st')
    | (Except.ok _, st') => joinAll env ldr token rest st'

/-- `CreateSwarm`'s manager loop: join+label each manager candidate in
order, skipping the one whose public address is the leader's. -/
def createJoinManagers (env : Env) (ldr : VMNode) (token : String) :
    List VMNode → MState → Res Unit
  | [], st => (Except.ok (), st)
  | n :: rest, st =>
    if n.PublicAddress == ldr.PublicAddress then
      createJoinManagers env ldr token rest st
    else
      match joinAndLabel env n ldr token st with
      | (Except.error e, st') => (Except.error e, st')
      | (Except.ok _, st') => createJoinManagers env ldr token rest st'

/-- `Manager.CreateSwarm`: form a new cluster over the membership list —
quorum-size precondition, random leader choice, virgin-node check, init,
leader labels, info refresh, token fetches, manager joins, worker joins,
final switch back to the leader. -/
def CreateSwarm (env : Env) (vms : VMNodes) (st : MState) : Res Unit :=
  let managers := vms.FilterByRole ManagerRole
  if managers.length = 3 ∨ managers.length = 5 then
    let workers := vms.FilterByRole WorkerRole
    let randomIndex := env.randIdx % managers.length
    let manager := managers.getD randomIndex default
    match SwitchNode env manager.PublicAddress st with
    | (Except.error e, st₁) => (Except.error e, st₁)
    | (Except.ok _, st₁) =>
      match GetInfo env st₁ with
      | (Except.error e, st₂) => (Except.error e, st₂)
      | (Except.ok node, st₂) =>
        let clusterID := node.Swarm.Cluster.ID
        if clusterID ≠ "" then
          (Except.error (.clusterAlreadyExists clusterID), st₂)
        else
          match runMut env
              (.swarmInit manager.PrivateAddress manager.PrivateAddress)
              st₂ with
          | (Except.error e, st₃) => (Except.error e, st₃)
          | (Except.ok _, st₃) =>
            match labelNode env manager st₃ with
            | (Except.error e, st₄) => (Except.error e, st₄)
            | (Except.ok _, st₄) =>
              match GetInfo env st₄ with
              | (Except.error e, st₅) => (Except.error e, st₅)
              | (Except.ok _, st₅) =>
                match JoinToken env managerToken st₅ with
                | (Except.error e, st₆) => (Except.error e, st₆)
                | (Except.ok tm, st₆) =>
                  match JoinToken env workerToken st₆ with
                  | (Except.error e, st₇) => (Except.error e, st₇)
                  | (Except.ok tw, st₇) =>
                    match createJoinManagers env manager tm managers st₇ with
                    | (Except.error e, st₈) => (Except.error e, st₈)
                    | (Except.ok _, st₈) =>
                      match joinAll env manager tw workers st₈ with
                      | (Except.error e, st₉) => (Except.error e, st₉)
                      | (Except.ok _, st₉) =>
                        SwitchNode env manager.PublicAddress st₉
  else
    (Except.error (.invalidQuorumSize (vms.FilterByRole ManagerRole).length),
      st)

/-- `Manager.UpdateSwarm`: list the live roster, compute the desired
members whose hostnames are absent from it, check the desired quorum
size, pick a random desired manager as join target, require an existing
cluster, fetch tokens, join+label the new managers then the new workers,
and switch to the chosen manager. -/
def UpdateSwarm (env : Env) (vms : VMNodes) (st : MState) : Res Unit :=
  match GetNodes env st with
  | (Except.error e, st') => (Except.error e, st')
  | (Except.ok nodes, st₁) =>
    let currentNodes := nodes.map (·.Hostname)
    let newNodes := vms.filter (fun v => !(currentNodes.contains v.Hostname))
    let managers := vms.FilterByRole ManagerRole
    if managers.length = 3 ∨ managers.length = 5 then
      let randomIndex := env.randIdx % managers.length
      let manager := managers.getD randomIndex default
      let newWorkers := VMNodes.FilterByRole newNodes WorkerRole
      let newManagers := VMNodes.FilterByRole newNodes ManagerRole
      match ensureManager env st₁ with
      | (Except.error e, st₂) => (Except.error e, st₂)
      | (Except.ok _, st₂) =>
        match GetInfo env st₂ with
        | (Except.error e, st₃) => (Except.error e, st₃)
        | (Except.ok node, st₃) =>
          let clusterID := node.Swarm.Cluster.ID
          if clusterID = "" then (Except.error .noExistingCluster, st₃)
          else
            match JoinToken env managerToken st₃ with
            | (Except.error e, st₄) => (Except.error e, st₄)
            | (Except.ok tm, st₄) =>
              match JoinToken env workerToken st₄ with
              | (Except.error e, st₅) => (Except.error e, st₅)
              | (Except.ok tw, st₅) =>
                match joinAll env manager tm newManagers st₅ with
                | (Except.error e, st₆) => (Except.error e, st₆)
                | (Except.ok _, st₆) =>
                  match joinAll env manager tw newWorkers st₆ with
                  | (Except.error e, st₇) => (Except.error e, st₇)
                  | (Except.ok _, st₇) =>
                    SwitchNode env manager.PublicAddress st₇
    else
      (Except.error (.invalidQuorumSize (vms.FilterByRole ManagerRole).length),
        st₁)

/-- The ticker interval of the drain polling loop (`time.Second * 5`), in
seconds. -/
def pollIntervalSeconds : Nat := 5

/-- The per-node drain deadline (`drainTimeout = time.Minute * 10`), in
seconds. -/
def drainTimeoutSeconds : Nat := 600

/-- Number of ticker firings strictly before the context deadline: ticks
at 5s, 10s, …, 595s; the 600s tick coincides with the deadline, and the
deadline case of the select ends the loop. -/
def numDrainPolls : Nat := drainTimeoutSeconds / pollIntervalSeconds - 1

/-- The select loop of `drainNode`: each iteration waits one ticker
interval; while ticks remain before the deadline it queries the node's
tasks (a failed query is logged and retried next tick; an all-terminal
result ends the loop with success); once the deadline is reached the loop
ends with `drainTimeout` carrying the elapsed time. -/
def drainLoop (env : Env) (node : String) (startedAt : Nat) :
    Nat → Nat → MState → Res Unit
  | 0, _, st =>
    let now := st.now + pollIntervalSeconds
    (Except.error (.drainTimeout (now - startedAt)), { st with now := now })
  | fuel + 1, pollIdx, st =>
    let st := { st with now := st.now + pollIntervalSeconds }
    match getTasks env node pollIdx st with
    | (Except.error _, st') =>
      drainLoop env node startedAt fuel (pollIdx + 1) st'
    | (Except.ok ts, st') =>
      if Tasks.AllShutdown ts then (Except.ok (), st')
      else drainLoop env node startedAt fuel (pollIdx + 1) st'

/-- `Manager.drainNode`: set the node's availability to `drain`, then
poll its task roster every interval until all tasks are terminal or the
per-node deadline elapses. -/
def drainNode (env : Env) (node : String) (st : MState) : Res Unit :=
  let startedAt := st.now
  match runMut env (.nodeUpdate [setAvailabilityDrain] node) st with
  | (Except.error e, st') => (Except.error e, st')
  | (Except.ok _, st') => drainLoop env node startedAt numDrainPolls 1 st'

/-- The per-node loop of `DrainNodes`: drain each node in order, aborting
on the first failure. -/
def drainAll (env : Env) : List String → MState → Res Unit
  | [], st => (Except.ok (), st)
  | n :: rest, st =>
    match drainNode env n st with
    | (Except.error e, st') => (Except.error e, st')
    | (Except.ok _, st') => drainAll env rest st'

/-- `Manager.DrainNodes`: ensure a manager target, then drain the listed
nodes sequentially. -/
def DrainNodes (env : Env) (nodes : List String) (st : MState) : Res Unit :=
  match ensureManager env st with
  | (Except.error e, st') => (Except.error e, st')
  | (Except.ok _, st') => drainAll env nodes st'

/-- The join commands of a trace, projected to (advertise address,
target-manager address) — one entry per issued join, in order. -/
def joinsOf (tr : List Effect) : List (String × String) :=
  tr.filterMap fun e =>
    match e with
    | .run _ (.join adv _ _ mgr) => some (adv, mgr)
    | _ => none

/-- The init commands of a trace, projected to (advertise, listen)
addresses, in order. -/
def initsOf (tr : List Effect) : List (String × String) :=
  tr.filterMap fun e =>
    match e with
    | .run _ (.swarmInit a l) => some (a, l)
    | _ => none

/-- Number of node-update commands in a trace (in formation/update traces
these are exactly the label updates). -/
def updateCount (tr : List Effect) : Nat :=
  tr.countP fun e =>
    match e with
    | .run _ (.nodeUpdate _ _) => true
    | _ => false

/-- The switch attempts of a trace, in order. -/
def switchesOf (tr : List Effect) : List String :=
  tr.filterMap fun e =>
    match e with
    | .switch a => some a
    | _ => none

/-- The commands run in a trace, in order (what a stub counting command
invocations records). -/
def runsOf (tr : List Effect) : List Cmd :=
  tr.filterMap fun e =>
    match e with
    | .run _ c => some c
    | _ => none

/-- The mutating commands run in a trace, in order. -/
def mutatingOf (tr : List Effect) : List Cmd :=
  (runsOf tr).filter Cmd.isMutating

/-- `TraceExt a b js inits uc`: state `b` extends state `a`'s trace by a
segment whose join projection is `js`, whose init projection is `inits`,
and which contains `uc` node-update commands. -/
def TraceExt (a b : MState) (js inits : List (String × String)) (uc : Nat) :
    Prop :=
  ∃ Δ, b.trace = a.trace ++ Δ ∧ joinsOf Δ = js ∧ initsOf Δ = inits ∧
    updateCount Δ = uc

/-! ## Concrete stub fixtures

Concrete transports and membership lists used to instantiate the general
theorems (the "transport stub" of the testable properties). -/

/-- Initial coordinator state: an arbitrary boot target, time zero, empty
trace. -/
def stW : MState := { target := "boot", now := 0, trace := [] }

/-- A manager member with one label. -/
def mgrA : VMNode :=
  { Hostname := "m1", PublicAddress := "pubM1", PrivateAddress := "privM1",
    Role := ManagerRole, Labels := [("ssd", ["true"])] }

/-- A manager member without labels. -/
def mgrB : VMNode :=
  { Hostname := "m2", PublicAddress := "pubM2", PrivateAddress := "privM2",
    Role := ManagerRole, Labels := [] }

/-- A manager member without labels. -/
def mgrC : VMNode :=
  { Hostname := "m3", PublicAddress := "pubM3", PrivateAddress := "privM3",
    Role := ManagerRole, Labels := [] }

/-- A fourth manager member, for invalid-quorum inputs. -/
def mgrD : VMNode :=
  { Hostname := "m4", PublicAddress := "pubM4", PrivateAddress := "privM4",
    Role := ManagerRole, Labels := [] }

/-- A worker member with one label. -/
def wrkA : VMNode :=
  { Hostname := "w1", PublicAddress := "pubW1", PrivateAddress := "privW1",
    Role := WorkerRole, Labels := [("gpu", ["a100", "h100"])] }

/-- A worker member without labels. -/
def wrkB : VMNode :=
  { Hostname := "w2", PublicAddress := "pubW2", PrivateAddress := "privW2",
    Role := WorkerRole, Labels := [] }

/-- A valid membership list: three managers, two workers. -/
def vmsCreate : VMNodes := [mgrA, mgrB, mgrC, wrkA, wrkB]

/-- An invalid membership list: four managers. -/
def vmsFour : VMNodes := [mgrA, mgrB, mgrC, mgrD]

/-- Info document of a virgin node (no cluster yet, active manager). -/
def virginInfo (t : String) : NodeInfo :=
  { Swarm := { NodeID := "nid-" ++ t, ControlAvailable := true,
               Cluster := { ID := "" }, RemoteManagers := [] } }

/-- Info document of a node in an existing cluster, an active manager. -/
def liveInfo (t : String) : NodeInfo :=
  { Swarm := { NodeID := "nid-" ++ t, ControlAvailable := true,
               Cluster := { ID := "cid-1" }, RemoteManagers := [] } }

/-- An all-accepting transport over virgin nodes. -/
def envFresh : Env :=
  { switchOk := fun _ => true
    splitHostPort := fun _ => none
    infoAt := fun t => some (virginInfo t)
    nodesAt := fun _ => some []
    tasksAt := fun _ _ _ => some []
    tokenAt := fun _ r => some ("tok-" ++ r)
    mutOk := fun _ _ => true
    randIdx := 0 }

/-- A live roster already containing hostnames m1, m2, m3. -/
def rosterLive : List NodeStatus := [⟨"m1"⟩, ⟨"m2"⟩, ⟨"m3"⟩]

/-- An all-accepting transport over an existing cluster whose roster is
`rosterLive`. -/
def envLive : Env :=
  { envFresh with
    infoAt := fun t => some (liveInfo t)
    nodesAt := fun _ => some rosterLive }

/-- Desired membership for an update: the three live managers plus one
new worker. -/
def vmsUpdate : VMNodes := [mgrA, mgrB, mgrC, wrkA]

/-- Desired membership of three managers only. -/
def vmsManagersOnly : VMNodes := [mgrA, mgrB, mgrC]

/-- A roster containing none of the desired hostnames. -/
def rosterForeign : List NodeStatus := [⟨"old1"⟩]

/-- An existing cluster whose roster contains none of the desired
hostnames. -/
def envLiveForeignRoster : Env :=
  { envLive with nodesAt := fun _ => some rosterForeign }

/-- Info document of a non-manager node knowing remote managers at
`A:2377` and `B:2377`. -/
def nonMgrInfo : NodeInfo :=
  { Swarm := { NodeID := "nid-x", ControlAvailable := false,
               Cluster := { ID := "cid-1" },
               RemoteManagers := [⟨"A:2377"⟩, ⟨"B:2377"⟩] } }

/-- Failover fixture: the target is not a manager; switching to `A` is
rejected, switching to `B` is accepted. -/
def envFailover : Env :=
  { switchOk := fun a => a == "B"
    splitHostPort := fun s =>
      if s == "A:2377" then some "A"
      else if s == "B:2377" then some "B" else none
    infoAt := fun _ => some nonMgrInfo
    nodesAt := fun _ => none
    tasksAt := fun _ _ _ => none
    tokenAt := fun _ _ => none
    mutOk := fun _ _ => false
    randIdx := 0 }

/-- Drain fixture: the task roster of every node always holds one
non-terminal task (the node never converges). -/
def envDrainStuck : Env :=
  { envLive with tasksAt := fun _ _ _ => some [{ terminal := false }] }

/-- Drain fixture: every task roster is all-terminal from the start. -/
def envDrainFast : Env :=
  { envLive with tasksAt := fun _ _ _ => some [{ terminal := true }] }

/-- Drain fixture: the first poll's query fails, every later poll reports
all-terminal. -/
def envDrainFlaky : Env :=
  { envLive with
    tasksAt := fun _ _ i => if i == 1 then none else some [{ terminal := true }] }

/-! ## Trace-projection algebra -/

theorem joinsOf_append (a b : List Effect) :
    joinsOf (a ++ b) = joinsOf a ++ joinsOf b :=
  List.filterMap_append a b _

theorem initsOf_append (a b : List Effect) :
    initsOf (a ++ b) = initsOf a ++ initsOf b :=
  List.filterMap_append a b _

theorem switchesOf_append (a b : List Effect) :
    switchesOf (a ++ b) = switchesOf a ++ switchesOf b :=
  List.filterMap_append a b _

theorem runsOf_append (a b : List Effect) :
    runsOf (a ++ b) = runsOf a ++ runsOf b :=
  List.filterMap_append a b _

theorem updateCount_append (a b : List Effect) :
    updateCount (a ++ b) = updateCount a + updateCount b :=
  List.countP_append _ a b

theorem mutatingOf_append (a b : List Effect) :
    mutatingOf (a ++ b) = mutatingOf a ++ mutatingOf b := by
  simp [mutatingOf, runsOf_append, List.filter_append]

/-! ## Inversion lemmas for the primitive operations -/

theorem SwitchNode_ok_inv {env : Env} {a : String} {st st' : MState}
    (h : SwitchNode env a st = (Except.ok (), st')) :
    env.switchOk a = true ∧
      st' = { st with target := a, trace := st.trace ++ [.switch a] } := by
  unfold SwitchNode MState.push at h
  by_cases hs : env.switchOk a <;> simp [hs] at h
  exact ⟨by simp [hs], h.symm⟩

theorem GetInfo_ok_inv {env : Env} {st st' : MState} {n : NodeInfo}
    (h : GetInfo env st = (Except.ok n, st')) :
    env.infoAt st.target = some n ∧ st' = st.push (.run st.target .info) := by
  unfold GetInfo at h
  cases hi : env.infoAt st.target <;>
    simp [MState.push, hi] at h ⊢ <;> simp_all [MState.push]

theorem runMut_ok_inv {env : Env} {c : Cmd} {st st' : MState}
    (h : runMut env c st = (Except.ok (), st')) :
    env.mutOk st.target c = true ∧ st' = st.push (.run st.target c) := by
  unfold runMut MState.push at h
  by_cases hm : env.mutOk st.target c <;> simp [hm] at h
  exact ⟨by simp [hm], by simp [MState.push, h.symm]⟩

theorem JoinToken_ok_inv {env : Env} {role tok : String} {st st' : MState}
    (h : JoinToken env role st = (Except.ok tok, st')) :
    st' = st.push (.run st.target (.joinTokenCmd role)) := by
  unfold JoinToken at h
  cases ht : env.tokenAt st.target role <;>
    simp [MState.push, ht] at h ⊢ <;> simp_all [MState.push]

theorem listNodes_ok_inv {env : Env} {st st' : MState} {ns : List NodeStatus}
    (h : listNodes env st = (Except.ok ns, st')) :
    env.nodesAt st.target = some ns ∧ st' = st.push (.run st.target .nodesLs) := by
  unfold listNodes at h
  cases hn : env.nodesAt st.target <;>
    simp [MState.push, hn] at h ⊢ <;> simp_all [MState.push]

/-! ## C8 — ensureManager on an active manager -/

/-- C8: whenever the current target's info reports it as an active
manager, `ensureManager` succeeds immediately — the only transport
invocation is the one info query, and no target switch is attempted. -/
theorem ensureManager_active_manager_no_switch
    (env : Env) (st : MState) (node : NodeInfo)
    (hinfo : env.infoAt st.target = some node)
    (hmgr : node.IsManager = true) :
    ensureManager env st = (Except.ok (), st.push (.run st.target .info)) ∧
    switchesOf (ensureManager env st).2.trace = switchesOf st.trace := by
  have h1 : ensureManager env st = (Except.ok (), st.push (.run st.target .info)) := by
    unfold ensureManager GetInfo
    simp [MState.push, hinfo, hmgr]
  refine ⟨h1, ?_⟩
  rw [h1]
  simp [MState.push, switchesOf_append, switchesOf, List.filterMap]

/-- C8 witness: against the live-cluster stub (whose every node reports
itself an active manager) `ensureManager` performs zero switches. -/
theorem ensureManager_active_manager_no_switch_witness :
    ensureManager envLive stW = (Except.ok (), stW.push (.run stW.target .info)) ∧
    switchesOf (ensureManager envLive stW).2.trace = switchesOf stW.trace :=
  ensureManager_active_manager_no_switch envLive stW (liveInfo "boot") rfl rfl

/-! ## C4 — manager failover policy -/

theorem tryRemoteManagers_exhausted (env : Env) :
    ∀ (rms : List RemoteManager) (st : MState),
      (∀ rm ∈ rms, ∀ h, env.splitHostPort rm.Addr = some h →
        env.switchOk h = false) →
      (tryRemoteManagers env rms st).1 = Except.error .noSuitableManager := by
  intro rms
  induction rms with
  | nil => intro st _; rfl
  | cons rm rest ih =>
    intro st hall
    unfold tryRemoteManagers
    cases hsp : env.splitHostPort rm.Addr with
    | none =>
      exact ih st (fun r hr => hall r (List.mem_cons_of_mem _ hr))
    | some h =>
      have hsw : env.switchOk h = false := hall rm (List.mem_cons_self _ _) h hsp
      simp only [SwitchNode, hsw, if_false, Bool.false_eq_true]
      exact ih _ (fun r hr => hall r (List.mem_cons_of_mem _ hr))

theorem tryRemoteManagers_cons (env : Env) (rm : RemoteManager)
    (rest : List RemoteManager) (st : MState) :
    tryRemoteManagers env (rm :: rest) st =
      match env.splitHostPort rm.Addr with
      | none => tryRemoteManagers env rest st
      | some host =>
        match SwitchNode env host st with
        | (Except.ok _, st') => (Except.ok (), st')
        | (Except.error _, st') => tryRemoteManagers env rest st' := rfl

theorem tryRemoteManagers_skip (env : Env) (rest : List RemoteManager) :
    ∀ (pre : List RemoteManager) (st : MState),
      (∀ rm ∈ pre, ∀ h, env.splitHostPort rm.Addr = some h →
        env.switchOk h = false) →
      tryRemoteManagers env (pre ++ rest) st =
        tryRemoteManagers env rest
          { st with
            trace := st.trace ++
              ((pre.filterMap (fun r => env.splitHostPort r.Addr)).map
                Effect.switch) } := by
  intro pre
  induction pre with
  | nil => intro st _; simp
  | cons rm pre' ih =>
    intro st hall
    rw [List.cons_append, tryRemoteManagers_cons]
    cases hsp : env.splitHostPort rm.Addr with
    | none =>
      rw [ih st (fun r hr => hall r (List.mem_cons_of_mem _ hr))]
      simp [hsp]
    | some h =>
      have hsw : env.switchOk h = false := hall rm (List.mem_cons_self _ _) h hsp
      simp only [SwitchNode, hsw, MState.push, Bool.false_eq_true, if_false]
      rw [ih _ (fun r hr => hall r (List.mem_cons_of_mem _ hr))]
      simp [hsp, List.append_assoc]

theorem tryRemoteManagers_first_ok (env : Env) (rm : RemoteManager)
    (post : List RemoteManager) (h : String) (st : MState)
    (hsp : env.splitHostPort rm.Addr = some h)
    (hsw : env.switchOk h = true) :
    tryRemoteManagers env (rm :: post) st =
      (Except.ok (),
        { st with target := h, trace := st.trace ++ [.switch h] }) := by
  unfold tryRemoteManagers
  simp [hsp, SwitchNode, hsw, MState.push]

/-- C4: when the current target does not report itself an active manager,
`ensureManager` walks the remote-manager list of that query in listed
order.  (a) If every candidate's address fails to parse or its switch is
rejected — in particular if the list is empty — the whole operation fails
with `noSuitableManager`.  (b) If the list is some prefix of
parse-or-switch failures followed by a candidate whose address parses to
`h` and whose switch is accepted, the operation succeeds with the current
target `h`; the full trace is the initial info query, the rejected switch
attempts of the parseable prefix in order, and the accepted switch — no
further command runs on the candidate (it is not re-verified as a
manager). -/
theorem ensureManager_failover_policy
    (env : Env) (st : MState) (node : NodeInfo)
    (hinfo : env.infoAt st.target = some node)
    (hmgr : node.IsManager = false) :
    ((∀ rm ∈ node.Swarm.RemoteManagers, ∀ h,
        env.splitHostPort rm.Addr = some h → env.switchOk h = false) →
      (ensureManager env st).1 = Except.error .noSuitableManager) ∧
    (∀ (pre : List RemoteManager) (rm : RemoteManager)
        (post : List RemoteManager) (h : String),
      node.Swarm.RemoteManagers = pre ++ rm :: post →
      (∀ r ∈ pre, ∀ h', env.splitHostPort r.Addr = some h' →
        env.switchOk h' = false) →
      env.splitHostPort rm.Addr = some h →
      env.switchOk h = true →
      ensureManager env st =
        (Except.ok (),
          { st with
            target := h,
            trace := st.trace ++ [.run st.target .info] ++
              ((pre.filterMap (fun r => env.splitHostPort r.Addr)).map
                Effect.switch) ++ [.switch h] })) := by
  have hstep : ensureManager env st =
      tryRemoteManagers env node.Swarm.RemoteManagers
        (st.push (.run st.target .info)) := by
    unfold ensureManager GetInfo
    simp [MState.push, hinfo, hmgr]
  constructor
  · intro hall
    rw [hstep]
    exact tryRemoteManagers_exhausted env _ _ hall
  · intro pre rm post h hlist hpre hsp hsw
    rw [hstep, hlist, tryRemoteManagers_skip env (rm :: post) pre _ hpre,
      tryRemoteManagers_first_ok env rm post h _ hsp hsw]
    simp [MState.push, List.append_assoc]

/-- C4 witness: a non-manager target listing remote managers `[A, B]`
with `A`'s switch rejected and `B`'s accepted ends with current target
`B` and no error, after exactly one info query and two switch attempts. -/
theorem ensureManager_failover_policy_witness :
    ensureManager envFailover stW =
      (Except.ok (),
        { stW with
          target := "B",
          trace := stW.trace ++ [.run stW.target .info] ++
            (([(⟨"A:2377"⟩ : RemoteManager)].filterMap
              (fun r => envFailover.splitHostPort r.Addr)).map
              Effect.switch) ++ [.switch "B"] }) := by
  refine (ensureManager_failover_policy envFailover stW nonMgrInfo rfl rfl).2
    [⟨"A:2377"⟩] ⟨"B:2377"⟩ [] "B" rfl ?_ rfl rfl
  intro r hr h' hh
  have hr' : r = (⟨"A:2377"⟩ : RemoteManager) := by
    simpa using hr
  subst hr'
  have : h' = "A" := by
    simpa [envFailover] using hh.symm
  subst this
  rfl

/-! ## Mutation-free query operations -/

theorem mutatingOf_switch (a : String) : mutatingOf [Effect.switch a] = [] := rfl

theorem mutatingOf_run_info (t : String) :
    mutatingOf [Effect.run t .info] = [] := rfl

theorem mutatingOf_run_nodesLs (t : String) :
    mutatingOf [Effect.run t .nodesLs] = [] := rfl

theorem tryRemoteManagers_mut (env : Env) :
    ∀ (rms : List RemoteManager) (st : MState),
      mutatingOf (tryRemoteManagers env rms st).2.trace =
        mutatingOf st.trace := by
  intro rms
  induction rms with
  | nil => intro st; rfl
  | cons rm rest ih =>
    intro st
    rw [tryRemoteManagers_cons]
    cases hsp : env.splitHostPort rm.Addr with
    | none => exact ih st
    | some h =>
      by_cases hsw : env.switchOk h
      · simp [SwitchNode, hsw, MState.push, mutatingOf_append, mutatingOf_switch]
      · simp only [SwitchNode, hsw, MState.push, Bool.false_eq_true, if_false]
        rw [ih]
        simp [mutatingOf_append, mutatingOf_switch]

theorem ensureManager_mut (env : Env) (st : MState) :
    mutatingOf (ensureManager env st).2.trace = mutatingOf st.trace := by
  unfold ensureManager GetInfo
  simp only [MState.push]
  cases hi : env.infoAt st.target with
  | none => simp [mutatingOf_append, mutatingOf_run_info]
  | some n =>
    by_cases him : n.IsManager
    · simp [him, mutatingOf_append, mutatingOf_run_info]
    · simp only [him, Bool.false_eq_true, if_false]
      rw [tryRemoteManagers_mut]
      simp [mutatingOf_append, mutatingOf_run_info]

theorem GetNodes_mut (env : Env) (st : MState) :
    mutatingOf (GetNodes env st).2.trace = mutatingOf st.trace := by
  unfold GetNodes
  rcases he : ensureManager env st with ⟨r, st₁⟩
  have hm : mutatingOf st₁.trace = mutatingOf st.trace := by
    have := ensureManager_mut env st
    rw [he] at this
    exact this
  cases r with
  | error e => simpa using hm
  | ok _ =>
    unfold listNodes
    simp only [MState.push]
    cases hn : env.nodesAt st₁.target <;>
      simp [mutatingOf_append, mutatingOf_run_nodesLs, hm]

/-! ## C1 — invalid quorum size is rejected -/

/-- C1 counterexample: against a recording stub, `UpdateSwarm` on a
four-manager membership list does fail with the invalid-quorum-size
error, but the stub has recorded command invocations (the roster query) —
so the claim that both operations fail before any command is issued is
false for `UpdateSwarm`. -/
theorem updateSwarm_invalid_quorum_commands_issued :
    (UpdateSwarm envLive vmsFour stW).1 = Except.error (.invalidQuorumSize 4) ∧
    runsOf (UpdateSwarm envLive vmsFour stW).2.trace ≠ [] := by decide

/-- C1 amended: for a membership list whose manager count is neither 3
nor 5, `CreateSwarm` fails with `invalidQuorumSize` before any transport
invocation (the state is unchanged), and `UpdateSwarm` — whenever its
initial roster query succeeds — fails with `invalidQuorumSize` right
after that query, having issued no mutating command. -/
theorem invalid_quorum_rejected
    (env : Env) (vms : VMNodes) (st : MState)
    (hq : ¬((vms.FilterByRole ManagerRole).length = 3 ∨
            (vms.FilterByRole ManagerRole).length = 5)) :
    CreateSwarm env vms st =
      (Except.error (.invalidQuorumSize (vms.FilterByRole ManagerRole).length),
        st) ∧
    (∀ (roster : List NodeStatus) (st₁ : MState),
      GetNodes env st = (Except.ok roster, st₁) →
      UpdateSwarm env vms st =
        (Except.error (.invalidQuorumSize (vms.FilterByRole ManagerRole).length),
          st₁) ∧
      mutatingOf st₁.trace = mutatingOf st.trace) := by
  constructor
  · unfold CreateSwarm
    rw [if_neg hq]
  · intro roster st₁ hn
    constructor
    · unfold UpdateSwarm
      rw [hn]
      dsimp only
      rw [if_neg hq]
    · have := GetNodes_mut env st
      rw [hn] at this
      exact this

/-- C1 amended witness: with four managers, `CreateSwarm` rejects with an
untouched state, while `UpdateSwarm` rejects only after the roster query
(an info and a node-ls invocation, neither mutating). -/
theorem invalid_quorum_rejected_witness :
    CreateSwarm envLive vmsFour stW =
      (Except.error (.invalidQuorumSize 4), stW) ∧
    UpdateSwarm envLive vmsFour stW =
      (Except.error (.invalidQuorumSize 4),
        { stW with trace := [.run "boot" .info, .run "boot" .nodesLs] }) ∧
    mutatingOf [Effect.run "boot" Cmd.info, Effect.run "boot" Cmd.nodesLs] =
      mutatingOf stW.trace := by
  have h := invalid_quorum_rejected envLive vmsFour stW (by decide)
  have h2 := h.2 rosterLive
    { stW with trace := [.run "boot" .info, .run "boot" .nodesLs] } (by decide)
  refine ⟨by simpa using h.1, by simpa using h2.1, by simpa using h2.2⟩

/-! ## C7 — formation requires a virgin node -/

/-- C7: when the selected leader's info reports a non-empty cluster
identifier, `CreateSwarm` fails with `clusterAlreadyExists` carrying that
identifier, and the trace gains no mutating command — in particular no
init command is ever issued. -/
theorem createSwarm_cluster_exists_rejected
    (env : Env) (vms : VMNodes) (st : MState) (ldr : VMNode) (node : NodeInfo)
    (hq : (vms.FilterByRole ManagerRole).length = 3 ∨
          (vms.FilterByRole ManagerRole).length = 5)
    (hldr : ldr = (vms.FilterByRole ManagerRole).getD
      (env.randIdx % (vms.FilterByRole ManagerRole).length) default)
    (hsw : env.switchOk ldr.PublicAddress = true)
    (hinfo : env.infoAt ldr.PublicAddress = some node)
    (hid : node.Swarm.Cluster.ID ≠ "") :
    (CreateSwarm env vms st).1 =
      Except.error (.clusterAlreadyExists node.Swarm.Cluster.ID) ∧
    mutatingOf (CreateSwarm env vms st).2.trace = mutatingOf st.trace ∧
    initsOf (CreateSwarm env vms st).2.trace = initsOf st.trace := by
  have hmain : CreateSwarm env vms st =
      (Except.error (.clusterAlreadyExists node.Swarm.Cluster.ID),
        { st with
          target := ldr.PublicAddress,
          trace := st.trace ++
            [.switch ldr.PublicAddress, .run ldr.PublicAddress .info] }) := by
    unfold CreateSwarm
    rw [if_pos hq]
    dsimp only
    rw [← hldr]
    simp [SwitchNode, hsw, GetInfo, MState.push, hinfo, hid]
  rw [hmain]
  refine ⟨rfl, ?_, ?_⟩ <;>
    simp [mutatingOf_append, initsOf_append, mutatingOf, initsOf, runsOf,
      List.filterMap, Cmd.isMutating]

/-- C7 witness: forming over the live-cluster stub fails with
`clusterAlreadyExists "cid-1"` and the trace holds no mutating command. -/
theorem createSwarm_cluster_exists_rejected_witness :
    (CreateSwarm envLive vmsCreate stW).1 =
      Except.error (.clusterAlreadyExists "cid-1") ∧
    mutatingOf (CreateSwarm envLive vmsCreate stW).2.trace =
      mutatingOf stW.trace ∧
    initsOf (CreateSwarm envLive vmsCreate stW).2.trace = initsOf stW.trace :=
  createSwarm_cluster_exists_rejected envLive vmsCreate stW mgrA
    (liveInfo "pubM1") (by decide) (by decide) rfl rfl (by decide)

/-! ## Drain-loop lemmas -/

theorem drainLoop_zero (env : Env) (node : String) (sA i : Nat) (st : MState) :
    drainLoop env node sA 0 i st =
      (Except.error (.drainTimeout (st.now + pollIntervalSeconds - sA)),
        { st with now := st.now + pollIntervalSeconds }) := rfl

theorem drainLoop_succ (env : Env) (node : String) (sA fuel i : Nat)
    (st : MState) :
    drainLoop env node sA (fuel + 1) i st =
      (match getTasks env node i { st with now := st.now + pollIntervalSeconds } with
       | (Except.error _, st') => drainLoop env node sA fuel (i + 1) st'
       | (Except.ok ts, st') =>
         if Tasks.AllShutdown ts then (Except.ok (), st')
         else drainLoop env node sA fuel (i + 1) st') := rfl

theorem drainAll_cons (env : Env) (n : String) (rest : List String)
    (st : MState) :
    drainAll env (n :: rest) st =
      (match drainNode env n st with
       | (Except.error e, st') => (Except.error e, st')
       | (Except.ok _, st') => drainAll env rest st') := rfl

theorem drainAll_append_ok (env : Env) (ys : List String) :
    ∀ (xs : List String) (st st' : MState),
      drainAll env xs st = (Except.ok (), st') →
      drainAll env (xs ++ ys) st = drainAll env ys st' := by
  intro xs
  induction xs with
  | nil =>
    intro st st' h
    simp only [drainAll] at h
    cases h
    rfl
  | cons x rest ih =>
    intro st st' h
    rw [List.cons_append, drainAll_cons]
    rw [drainAll_cons] at h
    rcases hx : drainNode env x st with ⟨r, stX⟩
    rw [hx] at h
    cases r with
    | error e => simp at h
    | ok _ =>
      dsimp only at h ⊢
      exact ih stX st' h

/-! ## C6 — polling-loop query failures are retried, never propagated -/

/-- C6: (a) the drain polling loop can only end in success or in
`drainTimeout` — a task-query failure is never propagated out of it; (b)
on a tick whose query fails, the loop records the attempted task query
and simply retries at the next tick. -/
theorem drain_poll_query_failure_retried :
    (∀ (env : Env) (node : String) (sA fuel i : Nat) (st : MState),
      (drainLoop env node sA fuel i st).1 = Except.ok () ∨
      ∃ e, (drainLoop env node sA fuel i st).1 =
        Except.error (.drainTimeout e)) ∧
    (∀ (env : Env) (node : String) (sA fuel i : Nat) (st : MState),
      env.tasksAt st.target node i = none →
      drainLoop env node sA (fuel + 1) i st =
        drainLoop env node sA fuel (i + 1)
          { st with
            now := st.now + pollIntervalSeconds,
            trace := st.trace ++ [.run st.target (.tasks node)] }) := by
  constructor
  · intro env node sA fuel
    induction fuel with
    | zero => intro i st; exact Or.inr ⟨_, rfl⟩
    | succ fuel ih =>
      intro i st
      rw [drainLoop_succ]
      unfold getTasks
      simp only [MState.push]
      cases ht : env.tasksAt st.target node i with
      | none => exact ih (i + 1) _
      | some ts =>
        by_cases hs : Tasks.AllShutdown ts
        · simp [hs]
        · simp only [hs, Bool.false_eq_true, if_false]
          exact ih (i + 1) _
  · intro env node sA fuel i st h
    rw [drainLoop_succ]
    unfold getTasks
    simp only [MState.push]
    rw [h]

/-- C6 witness: against the flaky stub whose first poll query fails, the
loop retries at the next tick with the failed query recorded. -/
theorem drain_poll_query_failure_retried_witness :
    drainLoop envDrainFlaky "n" 0 (3 + 1) 1 stW =
      drainLoop envDrainFlaky "n" 0 3 (1 + 1)
        { stW with
          now := stW.now + pollIntervalSeconds,
          trace := stW.trace ++ [.run stW.target (.tasks "n")] } :=
  drain_poll_query_failure_retried.2 envDrainFlaky "n" 0 3 1 stW rfl

/-! ## C9 — the first poll happens only after one full interval -/

/-- C9: the ticker fires first after one full interval, so even when the
node's tasks are all-terminal from the moment of draining, `drainNode`
succeeds only at `now + pollIntervalSeconds` — one availability-drain
command and exactly one task query are issued, and no drained verdict
exists before that first interval has elapsed. -/
theorem drain_first_poll_after_full_interval
    (env : Env) (node : String) (st : MState) (ts : Tasks)
    (hup : env.mutOk st.target (.nodeUpdate [setAvailabilityDrain] node) = true)
    (hts : env.tasksAt st.target node 1 = some ts)
    (hall : Tasks.AllShutdown ts = true) :
    drainNode env node st =
      (Except.ok (),
        { st with
          now := st.now + pollIntervalSeconds,
          trace := st.trace ++
            [.run st.target (.nodeUpdate [setAvailabilityDrain] node),
             .run st.target (.tasks node)] }) := by
  unfold drainNode
  simp only [runMut, MState.push, hup, if_true]
  have hnum : numDrainPolls = 118 + 1 := rfl
  rw [hnum, drainLoop_succ]
  unfold getTasks
  simp only [MState.push]
  rw [hts]
  simp [hall, List.append_assoc]

/-- C9 witness: with an all-terminal-from-the-start stub, draining node
`n` succeeds with exactly one poll, five seconds after it began. -/
theorem drain_first_poll_after_full_interval_witness :
    drainNode envDrainFast "n" stW =
      (Except.ok (),
        { stW with
          now := stW.now + pollIntervalSeconds,
          trace := stW.trace ++
            [.run stW.target (.nodeUpdate [setAvailabilityDrain] "n"),
             .run stW.target (.tasks "n")] }) :=
  drain_first_poll_after_full_interval envDrainFast "n" stW
    [{ terminal := true }] rfl rfl rfl

/-! ## C5 — drain timeout aborts the whole multi-node operation -/

theorem drainLoop_timeout (env : Env) (node : String) (sA : Nat) :
    ∀ (fuel i : Nat) (st : MState),
      (∀ j ts, env.tasksAt st.target node j = some ts →
        Tasks.AllShutdown ts = false) →
      ∃ stE, drainLoop env node sA fuel i st =
        (Except.error
          (.drainTimeout (st.now + (fuel + 1) * pollIntervalSeconds - sA)),
          stE) := by
  intro fuel
  induction fuel with
  | zero =>
    intro i st _
    refine ⟨{ st with now := st.now + pollIntervalSeconds }, ?_⟩
    have harith : st.now + (0 + 1) * pollIntervalSeconds =
        st.now + pollIntervalSeconds := by ring
    rw [harith]
    rfl
  | succ fuel ih =>
    intro i st hts
    rw [drainLoop_succ]
    unfold getTasks
    simp only [MState.push]
    cases ht : env.tasksAt st.target node i with
    | none =>
      obtain ⟨stE, hE⟩ := ih (i + 1)
        { st with
          now := st.now + pollIntervalSeconds,
          trace := st.trace ++ [.run st.target (.tasks node)] } hts
      refine ⟨stE, ?_⟩
      have harith : st.now + pollIntervalSeconds + (fuel + 1) * pollIntervalSeconds =
          st.now + (fuel + 1 + 1) * pollIntervalSeconds := by ring
      rw [← harith]
      exact hE
    | some ts =>
      have hx : Tasks.AllShutdown ts = false := hts i ts ht
      dsimp only
      simp only [hx, Bool.false_eq_true, if_false]
      obtain ⟨stE, hE⟩ := ih (i + 1)
        { st with
          now := st.now + pollIntervalSeconds,
          trace := st.trace ++ [.run st.target (.tasks node)] } hts
      refine ⟨stE, ?_⟩
      have harith : st.now + pollIntervalSeconds + (fuel + 1) * pollIntervalSeconds =
          st.now + (fuel + 1 + 1) * pollIntervalSeconds := by ring
      rw [← harith]
      exact hE

theorem drainNode_timeout (env : Env) (n : String) (st : MState)
    (hup : env.mutOk st.target (.nodeUpdate [setAvailabilityDrain] n) = true)
    (hts : ∀ j ts, env.tasksAt st.target n j = some ts →
      Tasks.AllShutdown ts = false) :
    ∃ stE, drainNode env n st =
      (Except.error (.drainTimeout drainTimeoutSeconds), stE) := by
  unfold drainNode
  simp only [runMut, MState.push, hup, if_true]
  obtain ⟨stE, hE⟩ := drainLoop_timeout env n st.now numDrainPolls 1
    { st with trace := st.trace ++ [.run st.target (.nodeUpdate [setAvailabilityDrain] n)] }
    hts
  refine ⟨stE, ?_⟩
  rw [hE]
  norm_num [numDrainPolls, drainTimeoutSeconds, pollIntervalSeconds]

/-- C5: when the per-node deadline elapses without the node's tasks ever
being observed all-terminal, that node's drain fails with `drainTimeout`
carrying the elapsed duration (the full 10-minute deadline), and
`DrainNodes` over `ns₁ ++ n :: ns₂` behaves exactly as over `ns₁ ++ [n]`
— the nodes after the timed-out one are never attempted. -/
theorem drain_timeout_aborts
    (env : Env) (ns₁ : List String) (n : String) (ns₂ : List String)
    (st st₀ st₁ : MState)
    (h₁ : ensureManager env st = (Except.ok (), st₀))
    (h₂ : drainAll env ns₁ st₀ = (Except.ok (), st₁))
    (h₃ : env.mutOk st₁.target (.nodeUpdate [setAvailabilityDrain] n) = true)
    (h₄ : ∀ j ts, env.tasksAt st₁.target n j = some ts →
      Tasks.AllShutdown ts = false) :
    (DrainNodes env (ns₁ ++ n :: ns₂) st).1 =
      Except.error (.drainTimeout drainTimeoutSeconds) ∧
    DrainNodes env (ns₁ ++ n :: ns₂) st = DrainNodes env (ns₁ ++ [n]) st := by
  obtain ⟨stE, hE⟩ := drainNode_timeout env n st₁ h₃ h₄
  have key : ∀ tail, drainAll env (ns₁ ++ n :: tail) st₀ =
      (Except.error (.drainTimeout drainTimeoutSeconds), stE) := by
    intro tail
    rw [drainAll_append_ok env (n :: tail) ns₁ st₀ st₁ h₂, drainAll_cons, hE]
  have hmain : ∀ tail, DrainNodes env (ns₁ ++ n :: tail) st =
      (Except.error (.drainTimeout drainTimeoutSeconds), stE) := by
    intro tail
    unfold DrainNodes
    rw [h₁]
    exact key tail
  constructor
  · rw [hmain ns₂]
  · rw [hmain ns₂, hmain []]

/-- C5 witness: over the never-converging stub, draining `[nodeX,
nodeY]` fails with `drainTimeout` after the 600-second deadline on
`nodeX`, identically to draining `[nodeX]` alone — `nodeY` is never
touched. -/
theorem drain_timeout_aborts_witness :
    (DrainNodes envDrainStuck ["nodeX", "nodeY"] stW).1 =
      Except.error (.drainTimeout drainTimeoutSeconds) ∧
    DrainNodes envDrainStuck ["nodeX", "nodeY"] stW =
      DrainNodes envDrainStuck ["nodeX"] stW := by
  have h := drain_timeout_aborts envDrainStuck [] "nodeX" ["nodeY"] stW
    (stW.push (.run stW.target .info)) (stW.push (.run stW.target .info))
    rfl rfl rfl
    (by
      intro j ts h
      have h' := Option.some.inj h
      rw [← h']
      rfl)
  exact ⟨h.1, h.2⟩


/-! ## Trace-extension lemmas for the join protocol -/

theorem TraceExt.comp {a b c : MState} {js1 is1 js2 is2 : List (String × String)}
    {u1 u2 : Nat} (h1 : TraceExt a b js1 is1 u1) (h2 : TraceExt b c js2 is2 u2) :
    TraceExt a c (js1 ++ js2) (is1 ++ is2) (u1 + u2) := by
  obtain ⟨d1, e1, j1, i1, c1⟩ := h1
  obtain ⟨d2, e2, j2, i2, c2⟩ := h2
  refine ⟨d1 ++ d2, ?_, ?_, ?_, ?_⟩
  · rw [e2, e1, List.append_assoc]
  · rw [joinsOf_append, j1, j2]
  · rw [initsOf_append, i1, i2]
  · rw [updateCount_append, c1, c2]

theorem TraceExt.proj {a b : MState} {js inits : List (String × String)}
    {uc : Nat} (h : TraceExt a b js inits uc) :
    joinsOf b.trace = joinsOf a.trace ++ js ∧
    initsOf b.trace = initsOf a.trace ++ inits ∧
    updateCount b.trace = updateCount a.trace + uc := by
  obtain ⟨d, e, j, i, c⟩ := h
  rw [e]
  exact ⟨by rw [joinsOf_append, j], by rw [initsOf_append, i],
    by rw [updateCount_append, c]⟩

theorem TraceExt.refl (a : MState) : TraceExt a a [] [] 0 :=
  ⟨[], by simp, rfl, rfl, rfl⟩

theorem SwitchNode_ok_ext {env : Env} {a : String} {st st' : MState}
    (h : SwitchNode env a st = (Except.ok (), st')) : TraceExt st st' [] [] 0 :=
  ⟨[.switch a], by rw [(SwitchNode_ok_inv h).2], rfl, rfl, rfl⟩

theorem GetInfo_ok_ext {env : Env} {st st' : MState} {n : NodeInfo}
    (h : GetInfo env st = (Except.ok n, st')) : TraceExt st st' [] [] 0 :=
  ⟨[.run st.target .info], by rw [(GetInfo_ok_inv h).2]; rfl, rfl, rfl, rfl⟩

theorem JoinToken_ok_ext {env : Env} {role tok : String} {st st' : MState}
    (h : JoinToken env role st = (Except.ok tok, st')) :
    TraceExt st st' [] [] 0 :=
  ⟨[.run st.target (.joinTokenCmd role)], by rw [JoinToken_ok_inv h]; rfl,
    rfl, rfl, rfl⟩

theorem runMut_init_ext {env : Env} {a l : String} {st st' : MState}
    (h : runMut env (.swarmInit a l) st = (Except.ok (), st')) :
    TraceExt st st' [] [(a, l)] 0 :=
  ⟨[.run st.target (.swarmInit a l)], by rw [(runMut_ok_inv h).2]; rfl,
    rfl, rfl, rfl⟩

theorem runMut_join_ext {env : Env} {a l tok m : String} {st st' : MState}
    (h : runMut env (.join a l tok m) st = (Except.ok (), st')) :
    TraceExt st st' [(a, m)] [] 0 :=
  ⟨[.run st.target (.join a l tok m)], by rw [(runMut_ok_inv h).2]; rfl,
    rfl, rfl, rfl⟩

theorem runMut_update_ext {env : Env} {opts : List String} {nd : String}
    {st st' : MState}
    (h : runMut env (.nodeUpdate opts nd) st = (Except.ok (), st')) :
    TraceExt st st' [] [] 1 :=
  ⟨[.run st.target (.nodeUpdate opts nd)], by rw [(runMut_ok_inv h).2]; rfl,
    rfl, rfl, rfl⟩

theorem joinSwarm_ok_ext {env : Env} {n ldr : VMNode} {tok : String}
    {st st' : MState} (h : joinSwarm env n ldr tok st = (Except.ok (), st')) :
    TraceExt st st' [(n.PrivateAddress, ldr.PrivateAddress)] [] 0 := by
  unfold joinSwarm at h
  rcases hs : SwitchNode env n.PublicAddress st with ⟨r1, stA⟩
  rw [hs] at h
  cases r1 with
  | error e => simp at h
  | ok u =>
    dsimp only at h
    simpa using (SwitchNode_ok_ext hs).comp (runMut_join_ext h)

theorem labelNode_ok_ext {env : Env} {n : VMNode} {st st' : MState}
    (h : labelNode env n st = (Except.ok (), st')) :
    TraceExt st st' [] [] (if n.Labels.isEmpty then 0 else 1) := by
  unfold labelNode at h
  rcases hs : SwitchNode env n.PublicAddress st with ⟨r1, stA⟩
  rw [hs] at h
  cases r1 with
  | error e => simp at h
  | ok u =>
    dsimp only at h
    rcases hg : GetInfo env stA with ⟨r2, stB⟩
    rw [hg] at h
    cases r2 with
    | error e => simp at h
    | ok info =>
      dsimp only at h
      by_cases hL : n.Labels.isEmpty
      · rw [if_pos hL] at h
        have hst : stB = st' := by simpa using h
        rw [if_pos hL, ← hst]
        simpa using (SwitchNode_ok_ext hs).comp (GetInfo_ok_ext hg)
      · rw [if_neg hL] at h
        rw [if_neg hL]
        simpa using ((SwitchNode_ok_ext hs).comp (GetInfo_ok_ext hg)).comp
          (runMut_update_ext h)

theorem joinAndLabel_ok_ext {env : Env} {n ldr : VMNode} {tok : String}
    {st st' : MState}
    (h : joinAndLabel env n ldr tok st = (Except.ok (), st')) :
    TraceExt st st' [(n.PrivateAddress, ldr.PrivateAddress)] []
      (if n.Labels.isEmpty then 0 else 1) := by
  unfold joinAndLabel at h
  rcases hj : joinSwarm env n ldr tok st with ⟨r1, stA⟩
  rw [hj] at h
  cases r1 with
  | error e => simp at h
  | ok u =>
    dsimp only at h
    simpa using (joinSwarm_ok_ext hj).comp (labelNode_ok_ext h)

theorem joinAll_ok_ext {env : Env} {ldr : VMNode} {tok : String} :
    ∀ {ns : List VMNode} {st st' : MState},
      joinAll env ldr tok ns st = (Except.ok (), st') →
      TraceExt st st'
        (ns.map (fun v => (v.PrivateAddress, ldr.PrivateAddress))) []
        (ns.countP (fun v => !v.Labels.isEmpty)) := by
  intro ns
  induction ns with
  | nil =>
    intro st st' h
    simp only [joinAll] at h
    cases h
    exact TraceExt.refl st
  | cons n rest ih =>
    intro st st' h
    simp only [joinAll] at h
    rcases hj : joinAndLabel env n ldr tok st with ⟨r1, stA⟩
    rw [hj] at h
    cases r1 with
    | error e => simp at h
    | ok u =>
      dsimp only at h
      have := (joinAndLabel_ok_ext hj).comp (ih h)
      simpa [List.countP_cons, Nat.add_comm] using this

theorem createJoinManagers_ok_ext {env : Env} {ldr : VMNode} {tok : String} :
    ∀ {ns : List VMNode} {st st' : MState},
      createJoinManagers env ldr tok ns st = (Except.ok (), st') →
      TraceExt st st'
        ((ns.filter (fun v => !(v.PublicAddress == ldr.PublicAddress))).map
          (fun v => (v.PrivateAddress, ldr.PrivateAddress))) []
        ((ns.filter (fun v => !(v.PublicAddress == ldr.PublicAddress))).countP
          (fun v => !v.Labels.isEmpty)) := by
  intro ns
  induction ns with
  | nil =>
    intro st st' h
    simp only [createJoinManagers] at h
    cases h
    exact TraceExt.refl st
  | cons n rest ih =>
    intro st st' h
    simp only [createJoinManagers] at h
    by_cases hskip : n.PublicAddress == ldr.PublicAddress
    · rw [if_pos hskip] at h
      have := ih h
      simpa [List.filter_cons, hskip] using this
    · rw [if_neg hskip] at h
      rcases hj : joinAndLabel env n ldr tok st with ⟨r1, stA⟩
      rw [hj] at h
      cases r1 with
      | error e => simp at h
      | ok u =>
        dsimp only at h
        have := (joinAndLabel_ok_ext hj).comp (ih h)
        simpa [List.filter_cons, hskip, List.countP_cons, Nat.add_comm]
          using this

theorem tryRemoteManagers_ext (env : Env) :
    ∀ (rms : List RemoteManager) (st : MState),
      TraceExt st (tryRemoteManagers env rms st).2 [] [] 0 := by
  intro rms
  induction rms with
  | nil => intro st; exact TraceExt.refl st
  | cons rm rest ih =>
    intro st
    rw [tryRemoteManagers_cons]
    cases hsp : env.splitHostPort rm.Addr with
    | none => exact ih st
    | some h =>
      by_cases hsw : env.switchOk h
      · simp only [SwitchNode, hsw, MState.push, if_true]
        exact ⟨[.switch h], rfl, rfl, rfl, rfl⟩
      · simp only [SwitchNode, hsw, MState.push, Bool.false_eq_true, if_false]
        have step : TraceExt st
            { st with trace := st.trace ++ [.switch h] } [] [] 0 :=
          ⟨[.switch h], rfl, rfl, rfl, rfl⟩
        simpa using step.comp (ih _)

theorem ensureManager_ext (env : Env) (st : MState) :
    TraceExt st (ensureManager env st).2 [] [] 0 := by
  unfold ensureManager GetInfo
  simp only [MState.push]
  have step : TraceExt st
      { st with trace := st.trace ++ [.run st.target .info] } [] [] 0 :=
    ⟨[.run st.target .info], rfl, rfl, rfl, rfl⟩
  cases hi : env.infoAt st.target with
  | none => exact step
  | some n =>
    by_cases him : n.IsManager
    · simp only [him, if_true]
      exact step
    · simp only [him, Bool.false_eq_true, if_false]
      simpa using step.comp (tryRemoteManagers_ext env n.Swarm.RemoteManagers _)

theorem GetNodes_ext (env : Env) (st : MState) :
    TraceExt st (GetNodes env st).2 [] [] 0 := by
  unfold GetNodes
  rcases he : ensureManager env st with ⟨r, st1⟩
  have base : TraceExt st st1 [] [] 0 := by
    have := ensureManager_ext env st
    rw [he] at this
    exact this
  cases r with
  | error e => exact base
  | ok u =>
    unfold listNodes
    simp only [MState.push]
    have step : TraceExt st1
        { st1 with trace := st1.trace ++ [.run st1.target .nodesLs] } [] [] 0 :=
      ⟨[.run st1.target .nodesLs], rfl, rfl, rfl, rfl⟩
    cases hn : env.nodesAt st1.target with
    | none => simpa using base.comp step
    | some ns => simpa using base.comp step


/-! ## C3 — the formation command protocol -/

/-- C3: a successful `CreateSwarm` run issues exactly one init command,
advertising the private address of the randomly drawn leader `ldr`; then
exactly one join command per non-leader manager followed by one per
worker (so all manager joins precede all worker joins), each advertising
the member's private address against the leader's private address; one
label-update command per participating node that declares labels; and the
trace ends with the switch back to the original leader, which is also the
final current target. -/
theorem CreateSwarm_command_protocol
    (env : Env) (vms : VMNodes) (st st' : MState) (ldr : VMNode)
    (hldr : ldr = (vms.FilterByRole ManagerRole).getD
      (env.randIdx % (vms.FilterByRole ManagerRole).length) default)
    (h : CreateSwarm env vms st = (Except.ok (), st')) :
    initsOf st'.trace =
      initsOf st.trace ++ [(ldr.PrivateAddress, ldr.PrivateAddress)] ∧
    joinsOf st'.trace = joinsOf st.trace ++
      (((vms.FilterByRole ManagerRole).filter
          (fun v => !(v.PublicAddress == ldr.PublicAddress)) ++
        vms.FilterByRole WorkerRole).map
        (fun v => (v.PrivateAddress, ldr.PrivateAddress))) ∧
    updateCount st'.trace = updateCount st.trace +
      (ldr :: ((vms.FilterByRole ManagerRole).filter
          (fun v => !(v.PublicAddress == ldr.PublicAddress)) ++
        vms.FilterByRole WorkerRole)).countP (fun v => !v.Labels.isEmpty) ∧
    st'.trace.getLast? = some (.switch ldr.PublicAddress) ∧
    st'.target = ldr.PublicAddress := by
  unfold CreateSwarm at h
  by_cases hq : ((vms.FilterByRole ManagerRole).length = 3 ∨
      (vms.FilterByRole ManagerRole).length = 5)
  swap
  · rw [if_neg hq] at h
    simp at h
  rw [if_pos hq] at h
  dsimp only at h
  rw [← hldr] at h
  rcases hs1 : SwitchNode env ldr.PublicAddress st with ⟨r1, st1⟩
  rw [hs1] at h
  cases r1 with
  | error e => simp at h
  | ok u1 =>
  dsimp only at h
  rcases hg1 : GetInfo env st1 with ⟨r2, st2⟩
  rw [hg1] at h
  cases r2 with
  | error e => simp at h
  | ok node =>
  dsimp only at h
  by_cases hid : node.Swarm.Cluster.ID ≠ ""
  · rw [if_pos hid] at h
    simp at h
  rw [if_neg hid] at h
  rcases hm : runMut env (.swarmInit ldr.PrivateAddress ldr.PrivateAddress) st2
    with ⟨r3, st3⟩
  rw [hm] at h
  cases r3 with
  | error e => simp at h
  | ok u3 =>
  dsimp only at h
  rcases hl : labelNode env ldr st3 with ⟨r4, st4⟩
  rw [hl] at h
  cases r4 with
  | error e => simp at h
  | ok u4 =>
  dsimp only at h
  rcases hg2 : GetInfo env st4 with ⟨r5, st5⟩
  rw [hg2] at h
  cases r5 with
  | error e => simp at h
  | ok node2 =>
  dsimp only at h
  rcases ht1 : JoinToken env managerToken st5 with ⟨r6, st6⟩
  rw [ht1] at h
  cases r6 with
  | error e => simp at h
  | ok tm =>
  dsimp only at h
  rcases ht2 : JoinToken env workerToken st6 with ⟨r7, st7⟩
  rw [ht2] at h
  cases r7 with
  | error e => simp at h
  | ok tw =>
  dsimp only at h
  rcases hcm : createJoinManagers env ldr tm (vms.FilterByRole ManagerRole) st7
    with ⟨r8, st8⟩
  rw [hcm] at h
  cases r8 with
  | error e => simp at h
  | ok u8 =>
  dsimp only at h
  rcases hw : joinAll env ldr tw (vms.FilterByRole WorkerRole) st8
    with ⟨r9, st9⟩
  rw [hw] at h
  cases r9 with
  | error e => simp at h
  | ok u9 =>
  dsimp only at h
  obtain ⟨hswF, hstF⟩ := SwitchNode_ok_inv h
  have ext :=
    ((((((((SwitchNode_ok_ext hs1).comp (GetInfo_ok_ext hg1)).comp
      (runMut_init_ext hm)).comp (labelNode_ok_ext hl)).comp
      (GetInfo_ok_ext hg2)).comp (JoinToken_ok_ext ht1)).comp
      (JoinToken_ok_ext ht2)).comp (createJoinManagers_ok_ext hcm)).comp
      (joinAll_ok_ext hw)
  obtain ⟨hJ, hI, hU⟩ := ext.proj
  refine ⟨?_, ?_, ?_, ?_, ?_⟩
  · rw [hstF]
    show initsOf (st9.trace ++ [.switch ldr.PublicAddress]) = _
    rw [initsOf_append, hI]
    simp [initsOf]
  · rw [hstF]
    show joinsOf (st9.trace ++ [.switch ldr.PublicAddress]) = _
    rw [joinsOf_append, hJ]
    simp [joinsOf, List.map_append]
  · rw [hstF]
    show updateCount (st9.trace ++ [.switch ldr.PublicAddress]) = _
    rw [updateCount_append, hU]
    have hone : updateCount [Effect.switch ldr.PublicAddress] = 0 := rfl
    rw [hone]
    cases hL : ldr.Labels.isEmpty <;>
      simp [List.countP_cons, List.countP_append, hL] <;> omega
  · rw [hstF]
    show (st9.trace ++ [Effect.switch ldr.PublicAddress]).getLast? = _
    exact List.getLast?_concat _
  · rw [hstF]

/-- C3 witness: forming a fresh cluster over three managers and two
workers (leader `mgrA` drawn at index zero) issues one init, the joins
for `mgrB`, `mgrC`, then `wrkA`, `wrkB` against `mgrA`'s private address,
one label update per labelled node (`mgrA` and `wrkA`), and ends switched
back to `mgrA`. -/
theorem CreateSwarm_command_protocol_witness :
    initsOf (CreateSwarm envFresh vmsCreate stW).2.trace =
      initsOf stW.trace ++ [(mgrA.PrivateAddress, mgrA.PrivateAddress)] ∧
    joinsOf (CreateSwarm envFresh vmsCreate stW).2.trace =
      joinsOf stW.trace ++
      (((vmsCreate.FilterByRole ManagerRole).filter
          (fun v => !(v.PublicAddress == mgrA.PublicAddress)) ++
        vmsCreate.FilterByRole WorkerRole).map
        (fun v => (v.PrivateAddress, mgrA.PrivateAddress))) ∧
    updateCount (CreateSwarm envFresh vmsCreate stW).2.trace =
      updateCount stW.trace +
      (mgrA :: ((vmsCreate.FilterByRole ManagerRole).filter
          (fun v => !(v.PublicAddress == mgrA.PublicAddress)) ++
        vmsCreate.FilterByRole WorkerRole)).countP
        (fun v => !v.Labels.isEmpty) ∧
    (CreateSwarm envFresh vmsCreate stW).2.trace.getLast? =
      some (.switch mgrA.PublicAddress) ∧
    (CreateSwarm envFresh vmsCreate stW).2.target = mgrA.PublicAddress :=
  CreateSwarm_command_protocol envFresh vmsCreate stW
    (CreateSwarm envFresh vmsCreate stW).2 mgrA (by decide) rfl


/-! ## C2 — incremental update joins only absent members -/

/-- C2: a successful `UpdateSwarm` run issues exactly one join command
per desired member whose hostname is absent from the live roster — new
managers first, then new workers, each against the private address of the
randomly drawn desired manager `ldr` — and one label update per such new
member that declares labels.  Members whose hostnames are already present
receive no join and no label command (the join projection is exactly the
map over the absent members), and no init command is ever issued. -/
theorem UpdateSwarm_joins_absent_only
    (env : Env) (vms : VMNodes) (st st1 st' : MState)
    (roster : List NodeStatus) (newNodes : VMNodes) (ldr : VMNode)
    (hn : GetNodes env st = (Except.ok roster, st1))
    (hnew : newNodes = vms.filter
      (fun v => !((roster.map (fun x => x.Hostname)).contains v.Hostname)))
    (hldr : ldr = (vms.FilterByRole ManagerRole).getD
      (env.randIdx % (vms.FilterByRole ManagerRole).length) default)
    (h : UpdateSwarm env vms st = (Except.ok (), st')) :
    joinsOf st'.trace = joinsOf st.trace ++
      ((VMNodes.FilterByRole newNodes ManagerRole ++
        VMNodes.FilterByRole newNodes WorkerRole).map
        (fun v => (v.PrivateAddress, ldr.PrivateAddress))) ∧
    updateCount st'.trace = updateCount st.trace +
      (VMNodes.FilterByRole newNodes ManagerRole ++
        VMNodes.FilterByRole newNodes WorkerRole).countP
        (fun v => !v.Labels.isEmpty) ∧
    initsOf st'.trace = initsOf st.trace := by
  unfold UpdateSwarm at h
  rw [hn] at h
  dsimp only at h
  rw [← hnew, ← hldr] at h
  by_cases hq : ((vms.FilterByRole ManagerRole).length = 3 ∨
      (vms.FilterByRole ManagerRole).length = 5)
  swap
  · rw [if_neg hq] at h
    simp at h
  rw [if_pos hq] at h
  have base : TraceExt st st1 [] [] 0 := by
    have := GetNodes_ext env st
    rw [hn] at this
    exact this
  rcases he : ensureManager env st1 with ⟨r1, stE⟩
  rw [he] at h
  cases r1 with
  | error e => simp at h
  | ok u1 =>
  dsimp only at h
  have eEns : TraceExt st1 stE [] [] 0 := by
    have := ensureManager_ext env st1
    rw [he] at this
    exact this
  rcases hg : GetInfo env stE with ⟨r2, stG⟩
  rw [hg] at h
  cases r2 with
  | error e => simp at h
  | ok node =>
  dsimp only at h
  by_cases hcid : node.Swarm.Cluster.ID = ""
  · rw [if_pos hcid] at h
    simp at h
  rw [if_neg hcid] at h
  rcases ht1 : JoinToken env managerToken stG with ⟨r3, st3⟩
  rw [ht1] at h
  cases r3 with
  | error e => simp at h
  | ok tm =>
  dsimp only at h
  rcases ht2 : JoinToken env workerToken st3 with ⟨r4, st4⟩
  rw [ht2] at h
  cases r4 with
  | error e => simp at h
  | ok tw =>
  dsimp only at h
  rcases hjm : joinAll env ldr tm (VMNodes.FilterByRole newNodes ManagerRole) st4
    with ⟨r5, st5⟩
  rw [hjm] at h
  cases r5 with
  | error e => simp at h
  | ok u5 =>
  dsimp only at h
  rcases hjw : joinAll env ldr tw (VMNodes.FilterByRole newNodes WorkerRole) st5
    with ⟨r6, st6⟩
  rw [hjw] at h
  cases r6 with
  | error e => simp at h
  | ok u6 =>
  dsimp only at h
  obtain ⟨hswF, hstF⟩ := SwitchNode_ok_inv h
  have ext :=
    ((((((base.comp eEns).comp (GetInfo_ok_ext hg)).comp
      (JoinToken_ok_ext ht1)).comp (JoinToken_ok_ext ht2)).comp
      (joinAll_ok_ext hjm)).comp (joinAll_ok_ext hjw))
  obtain ⟨hJ, hI, hU⟩ := ext.proj
  refine ⟨?_, ?_, ?_⟩
  · rw [hstF]
    show joinsOf (st6.trace ++ [.switch ldr.PublicAddress]) = _
    rw [joinsOf_append, hJ]
    simp [joinsOf, List.map_append]
  · rw [hstF]
    show updateCount (st6.trace ++ [.switch ldr.PublicAddress]) = _
    rw [updateCount_append, hU]
    have hone : updateCount [Effect.switch ldr.PublicAddress] = 0 := rfl
    rw [hone]
    simp [List.countP_append]
  · rw [hstF]
    show initsOf (st6.trace ++ [.switch ldr.PublicAddress]) = _
    rw [initsOf_append, hI]
    simp [initsOf]

/-- C2 witness: with the live roster already holding hostnames m1, m2,
m3 and desired membership m1, m2, m3 plus the new worker w1, a
successful `UpdateSwarm` issues exactly one join — for w1, against the
drawn manager m1's private address — one label update (w1 declares
labels), and no join or label command for m1–m3. -/
theorem UpdateSwarm_joins_absent_only_witness :
    joinsOf (UpdateSwarm envLive vmsUpdate stW).2.trace =
      joinsOf stW.trace ++
      ((VMNodes.FilterByRole [wrkA] ManagerRole ++
        VMNodes.FilterByRole [wrkA] WorkerRole).map
        (fun v => (v.PrivateAddress, mgrA.PrivateAddress))) ∧
    updateCount (UpdateSwarm envLive vmsUpdate stW).2.trace =
      updateCount stW.trace +
      (VMNodes.FilterByRole [wrkA] ManagerRole ++
        VMNodes.FilterByRole [wrkA] WorkerRole).countP
        (fun v => !v.Labels.isEmpty) ∧
    initsOf (UpdateSwarm envLive vmsUpdate stW).2.trace = initsOf stW.trace :=
  UpdateSwarm_joins_absent_only envLive vmsUpdate stW
    { stW with trace := [.run "boot" .info, .run "boot" .nodesLs] }
    (UpdateSwarm envLive vmsUpdate stW).2 rosterLive [wrkA] mgrA
    (by decide) (by decide) (by decide) rfl

/-! ## C10 — the update join target is drawn from the full desired set -/

/-- C10: `UpdateSwarm` draws its join target from the full desired
manager set, not from the managers already in the roster: with a live
roster containing none of the desired hostnames, the drawn target m1 is
itself a not-yet-joined member (its hostname is absent from the roster),
m1's own join references its own private address, and the joins for the
other new managers m2 and m3 reference m1's private address — the address
of a node that is not yet a cluster member. -/
theorem UpdateSwarm_join_target_may_be_unjoined :
    (UpdateSwarm envLiveForeignRoster vmsManagersOnly stW).1 = Except.ok () ∧
    joinsOf (UpdateSwarm envLiveForeignRoster vmsManagersOnly stW).2.trace =
      [("privM1", "privM1"), ("privM2", "privM1"), ("privM3", "privM1")] ∧
    (rosterForeign.map (fun x => x.Hostname)).contains mgrA.Hostname = false := by
  decide

end Swarm
